import Mathlib

/-!
MCServer process entry point (`src/main.cpp`): a verification development

The file embeds the start-up and shutdown code of `src/main.cpp` in Lean:
the command-line overlay builder `parseArguments`, the signal handler
`NonCtrlHandler`, the console handler `CtrlHandler`, the service control
handler `serviceCtrlHandler`, the supervisor `universalMain`, the service
entry points and `main`.

Global variables are a memory `Global → Bool`; every store to a global and
every call that leaves `main.cpp` is appended, in program order, to a trace
of events, so that ordering properties are statements about lists.
Preprocessor conditions (`_WIN32`, `_DEBUG`, `ANDROID_NDK`, `BUILD_ID`,
`SIGABRT_COMPAT`) and the numeric values of the `<csignal>` macros are fields
of a `Build` record.
-/

namespace MCServer

/-! ## The settings repository -/

/-- A repository key: the pair (a_KeyName, a_ValueName) of `AddValue`. -/
abbrev RepoKey := String × String

/-- Modelled from the spec: `cMemorySettingsRepository` (declared in
`MemorySettingsRepository.h`, which is not part of the sources at hand). The
spec describes it as an "ordered mapping from (section, key) to an ordered
sequence of values; immutable after a single explicit seal operation". A value
is the `Int64` that `parseArguments` stores. -/
structure cMemorySettingsRepository where
  m_Map : List (RepoKey × List Int)
  m_Writable : Bool
  deriving DecidableEq, Repr

/-- The error of a write to a sealed repository ("further writes fail with an
`ImmutableConfigError`"). -/
inductive ImmutableConfigError
  | mk
  deriving DecidableEq, Repr

/-- Appends `v` to the sequence stored under `k`, creating the key at the end
of the mapping when it is absent. -/
def appendValue (k : RepoKey) (v : Int) : List (RepoKey × List Int) → List (RepoKey × List Int)
  | [] => [(k, [v])]
  | (k', vs) :: rest =>
    if k' = k then (k', vs ++ [v]) :: rest else (k', vs) :: appendValue k v rest

namespace cMemorySettingsRepository

/-- Modelled from the spec: the constructor `cMemorySettingsRepository()`. The
repository starts empty and writable: sealing is "a single explicit seal
operation", and `parseArguments` adds values to a freshly made repository
before it seals it. -/
def new : cMemorySettingsRepository :=
  { m_Map := [], m_Writable := true }

/-- Modelled from the spec: `AddValue(a_KeyName, a_ValueName, Int64)`. On a
writable repository the value is appended under the key; on a sealed one the
write fails. -/
def AddValue (r : cMemorySettingsRepository) (a_KeyName a_ValueName : String) (a_Value : Int) :
    Except ImmutableConfigError cMemorySettingsRepository :=
  if r.m_Writable then
    .ok { r with m_Map := appendValue (a_KeyName, a_ValueName) a_Value r.m_Map }
  else
    .error ImmutableConfigError.mk

/-- Modelled from the spec: `SetReadOnly()`, the seal operation. -/
def SetReadOnly (r : cMemorySettingsRepository) : cMemorySettingsRepository :=
  { r with m_Writable := false }

/-- The values held under (a_KeyName, a_ValueName), in insertion order. -/
def GetValues (r : cMemorySettingsRepository) (a_KeyName a_ValueName : String) : List Int :=
  (r.m_Map.lookup (a_KeyName, a_ValueName)).getD []

/-- The keys the repository holds, in order. -/
def keys (r : cMemorySettingsRepository) : List RepoKey :=
  r.m_Map.map Prod.fst

/-- The repository is read-only. -/
def sealed (r : cMemorySettingsRepository) : Bool :=
  !r.m_Writable

end cMemorySettingsRepository

/-! ## Globals, events and the world -/

/-- The global variables that `main.cpp` reads or writes. `m_ShouldStop` is a
static member of `cRoot` that `main.cpp` only assigns. -/
inductive Global
  | m_TerminateEventRaised
  | m_ShouldStop
  | m_RunAsService
  | g_ServerTerminated
  | g_ShouldLogCommIn
  | g_ShouldLogCommOut
  deriving DecidableEq, Repr

/-- The second argument of `std::signal`: `SIG_DFL`, `SIG_IGN`, or the
handler `NonCtrlHandler`. -/
inductive SigDisposition
  | SIG_DFL
  | SIG_IGN
  | NonCtrlHandler
  deriving DecidableEq, Repr

/-- What `main.cpp` does that is visible outside a function: a store to a
global, or a call into the C++ runtime, the operating system or the rest of
the server. -/
inductive Event
  | write (g : Global) (v : Bool)
  | LOGD (msg : String)
  | LOGERROR (msg : String)
  | signal (sig : Int) (d : SigDisposition)
  | PrintStackTrace
  | abort
  | sleep_for (ms : Nat)
  | SetConsoleCtrlHandler
  | InitiateMultithreading
  | NetworkSingletonGet
  | NetworkSingletonTerminate
  | RootStart (overridesRepo : cMemorySettingsRepository)
  | SetServiceStatus (acceptedControls newState exitCode : Nat)
  | OutputDebugStringA (msg : String)
  | SetCurrentDirectory
  | RegisterServiceCtrlHandler
  | CreateThread
  | WaitForSingleObject
  | CloseHandle
  | StartServiceCtrlDispatcher
  | printf (msg : String)
  | setvbuf
  deriving DecidableEq, Repr

/-- The state of the process as `main.cpp` sees it: the globals and the trace
of events so far. -/
structure World where
  mem : Global → Bool
  trace : List Event

namespace World

/-- The process at start-up: `m_TerminateEventRaised`, `m_RunAsService` and
`g_ServerTerminated` are initialised to `false` (lines 23, 35, 26); the two
logging toggles have no initialiser and static storage, hence are `false`.
`m_ShouldStop` is defined outside `main.cpp`; its initial value is an
argument. -/
def initial (shouldStop : Bool) : World :=
  { mem := fun g => if g = Global.m_ShouldStop then shouldStop else false, trace := [] }

/-- A store `g = v;`. -/
def write (w : World) (g : Global) (v : Bool) : World :=
  { mem := fun x => if x = g then v else w.mem x, trace := w.trace ++ [Event.write g v] }

/-- A call that returns to its caller. -/
def call (w : World) (e : Event) : World :=
  { w with trace := w.trace ++ [e] }

end World

/-! ## The command line (TCLAP) -/

/-- What `TCLAP::ArgException` carries: `error()` and `argId()`. -/
structure ArgException where
  error : String
  argId : String
  deriving DecidableEq, Repr

/-- The class `TCLAP::ValueArg<int>`: the value given on the command line, if any, and
the default given to the constructor. -/
structure ValueArg where
  parsed : Option Int
  dflt : Int
  deriving DecidableEq, Repr

/-- The method `ValueArg::isSet()`: the argument occurred on the command line. -/
def ValueArg.isSet (a : ValueArg) : Bool := a.parsed.isSome

/-- The method `ValueArg::getValue()`: the value given, or else the default. -/
def ValueArg.getValue (a : ValueArg) : Int := a.parsed.getD a.dflt

/-- The class `TCLAP::MultiArg<int>`: the values given, in command-line order. -/
structure MultiArg where
  values : List Int
  deriving DecidableEq, Repr

/-- The method `MultiArg::isSet()`: the argument occurred at least once. -/
def MultiArg.isSet (a : MultiArg) : Bool := !a.values.isEmpty

/-- The method `MultiArg::getValue()`. -/
def MultiArg.getValue (a : MultiArg) : List Int := a.values

/-- The class `TCLAP::SwitchArg`, default `false`. -/
structure SwitchArg where
  value : Bool
  deriving DecidableEq, Repr

/-- The method `SwitchArg::getValue()`. -/
def SwitchArg.getValue (a : SwitchArg) : Bool := a.value

/-- What a successful `cmd.parse(argc, argv)` leaves in the seven argument
objects declared in `parseArguments` (lines 373 to 385). -/
structure CmdLine where
  slots : Option Int
  ports : List Int
  commLog : Bool
  commLogIn : Bool
  commLogOut : Bool
  noBuf : Bool
  runAsService : Bool
  deriving DecidableEq, Repr

/-- The TCLAP parser, a library outside `main.cpp`: it either fills the
argument objects or throws `TCLAP::ArgException`. -/
abbrev Parser := List String → Except ArgException CmdLine

/-- Lines 367 to 441, `parseArguments`. The result is the world after the call
and either the repository returned or the exception that left the function
(a failed `AddValue` is not a `TCLAP::ArgException`, so the handler at line 436
does not catch it). -/
def parseArguments (parse : Parser) (argv : List String) (w : World) :
    World × Except ImmutableConfigError cMemorySettingsRepository :=
  match parse argv with
  | .error e =>
    (w.call (Event.printf ("error reading command line " ++ e.error ++ " for arg " ++ e.argId)),
      .ok cMemorySettingsRepository.new)
  | .ok a =>
    let slotsArg : ValueArg := { parsed := a.slots, dflt := -1 }
    let portsArg : MultiArg := { values := a.ports }
    let commLogArg : SwitchArg := { value := a.commLog }
    let commLogInArg : SwitchArg := { value := a.commLogIn }
    let commLogOutArg : SwitchArg := { value := a.commLogOut }
    let noBufArg : SwitchArg := { value := a.noBuf }
    let runAsServiceArg : SwitchArg := { value := a.runAsService }
    let repo := cMemorySettingsRepository.new
    match (if slotsArg.isSet then repo.AddValue "Server" "MaxPlayers" slotsArg.getValue
           else .ok repo) with
    | .error e => (w, .error e)
    | .ok repo =>
      match (if portsArg.isSet then
               portsArg.getValue.foldlM (fun r port => r.AddValue "Server" "Port" port) repo
             else .ok repo) with
      | .error e => (w, .error e)
      | .ok repo =>
        let w :=
          if commLogArg.getValue then
            (w.write Global.g_ShouldLogCommIn true).write Global.g_ShouldLogCommOut true
          else
            (w.write Global.g_ShouldLogCommIn commLogInArg.getValue).write
              Global.g_ShouldLogCommOut commLogOutArg.getValue
        let w := if noBufArg.getValue then w.call Event.setvbuf else w
        let w := if runAsServiceArg.getValue then w.write Global.m_RunAsService true else w
        (w, .ok repo.SetReadOnly)

/-! ## Build configuration and host answers -/

/-- The strings of `BuildInfo.h`, present when `BUILD_ID` is defined. -/
structure BuildInfo where
  BUILD_SERIES_NAME : String
  BUILD_ID : String
  BUILD_COMMIT_ID : String
  BUILD_DATETIME : String
  deriving DecidableEq, Repr

/-- What the preprocessor and the system headers fix for one build: the values
of the `<csignal>` macros (`SIGABRT_COMPAT` exists on some platforms only), the
Windows service constants, and which of `BUILD_ID`, `_WIN32`, `_DEBUG` and
`ANDROID_NDK` are defined. -/
structure Build where
  SIGSEGV : Int
  SIGABRT : Int
  SIGABRT_COMPAT : Option Int
  SIGINT : Int
  SIGTERM : Int
  SERVICE_CONTROL_STOP : Nat
  SERVICE_STOP_PENDING : Nat
  SERVICE_STOPPED : Nat
  SERVICE_RUNNING : Nat
  SERVICE_ACCEPT_STOP : Nat
  buildInfo : Option BuildInfo
  WIN32 : Bool
  DEBUG : Bool
  ANDROID_NDK : Bool
  deriving DecidableEq, Repr

/-- The case labels of the switch in `NonCtrlHandler`, in source order. -/
def Build.caseLabels (b : Build) : List Int :=
  [b.SIGSEGV, b.SIGABRT] ++ b.SIGABRT_COMPAT.toList ++ [b.SIGINT, b.SIGTERM]

/-- A switch statement compiles only when its case labels are pairwise
distinct. -/
def Build.labelsDistinct (b : Build) : Bool :=
  decide b.caseLabels.Nodup

/-- A POSIX build: Linux signal numbers, no `SIGABRT_COMPAT`, not `_WIN32`. -/
def posixBuild : Build :=
  { SIGSEGV := 11, SIGABRT := 6, SIGABRT_COMPAT := none, SIGINT := 2, SIGTERM := 15,
    SERVICE_CONTROL_STOP := 1, SERVICE_STOP_PENDING := 3, SERVICE_STOPPED := 1,
    SERVICE_RUNNING := 4, SERVICE_ACCEPT_STOP := 1,
    buildInfo := none, WIN32 := false, DEBUG := false, ANDROID_NDK := false }

/-- A Windows release build: the numbers of the Microsoft `signal.h` and
`winsvc.h`. -/
def windowsBuild : Build :=
  { SIGSEGV := 11, SIGABRT := 22, SIGABRT_COMPAT := some 6, SIGINT := 2, SIGTERM := 15,
    SERVICE_CONTROL_STOP := 1, SERVICE_STOP_PENDING := 3, SERVICE_STOPPED := 1,
    SERVICE_RUNNING := 4, SERVICE_ACCEPT_STOP := 1,
    buildInfo := some { BUILD_SERIES_NAME := "local", BUILD_ID := "1",
                        BUILD_COMMIT_ID := "0", BUILD_DATETIME := "now" },
    WIN32 := true, DEBUG := false, ANDROID_NDK := false }

/-- An Android NDK build: as `posixBuild`, with `ANDROID_NDK` defined. -/
def androidBuild : Build :=
  { posixBuild with ANDROID_NDK := true }

/-- The answers of the operating system to the calls whose result `main.cpp`
tests. -/
structure Host where
  SetConsoleCtrlHandler : Bool
  SetServiceStatus : Bool
  RegisterServiceCtrlHandler : Bool
  CreateThread : Bool
  StartServiceCtrlDispatcher : Bool
  GetLastError : Nat
  deriving DecidableEq, Repr

/-- A host on which every call succeeds. -/
def goodHost : Host :=
  { SetConsoleCtrlHandler := true, SetServiceStatus := true, RegisterServiceCtrlHandler := true,
    CreateThread := true, StartServiceCtrlDispatcher := true, GetLastError := 0 }

/-! ## The switch statement -/

/-- How control leaves a block of a switch: it runs off the end of the block
into the next one, it executes `break`, or it called a function that does not
return. -/
inductive Flow
  | fallsThrough
  | breaks
  | neverReturns
  deriving DecidableEq, Repr

/-- How a call of a handler ends. -/
inductive Completion
  | returned
  | aborted
  deriving DecidableEq, Repr

/-- One block of a switch: its `case` labels, whether it carries `default:`,
and its statements. -/
structure CaseBlock (α : Type) where
  labels : List α
  isDefault : Bool
  body : World → World × Flow

/-- Runs the blocks in order, starting with the first, until one breaks or
does not return. -/
def runBlocks {α : Type} : List (CaseBlock α) → World → World × Flow
  | [], w => (w, Flow.breaks)
  | c :: rest, w =>
    match c.body w with
    | (w', Flow.fallsThrough) => runBlocks rest w'
    | r => r

/-- The blocks from the first one labelled `v` on. -/
def fromLabel {α : Type} [DecidableEq α] (v : α) : List (CaseBlock α) → Option (List (CaseBlock α))
  | [] => none
  | c :: rest => if v ∈ c.labels then some (c :: rest) else fromLabel v rest

/-- The blocks from the one that carries `default:` on. -/
def fromDefault {α : Type} : List (CaseBlock α) → Option (List (CaseBlock α))
  | [] => none
  | c :: rest => if c.isDefault then some (c :: rest) else fromDefault rest

/-- The statement `switch (v) { ... }`: control jumps to the block labelled `v`,
or to the default block when no label matches, and runs on from there. -/
def switchOn {α : Type} [DecidableEq α] (v : α) (blocks : List (CaseBlock α)) (w : World) :
    World × Flow :=
  match fromLabel v blocks with
  | some bs => runBlocks bs w
  | none =>
    match fromDefault blocks with
    | some bs => runBlocks bs w
    | none => (w, Flow.breaks)

/-- The disposition of signal `sig` after the `std::signal` calls of a trace:
that of the last such call for this signal number; `none`, the default of the
platform, when there is no such call. -/
def dispositionOf (sig : Int) : List Event → Option SigDisposition
  | [] => none
  | Event.signal s d :: es =>
    match dispositionOf sig es with
    | some d' => some d'
    | none => if s = sig then some d else none
  | _ :: es => dispositionOf sig es

/-- The call `abort()`: it raises SIGABRT and does not return. When the
disposition of SIGABRT is the handler `NonCtrlHandler` (installed at line 494),
that handler runs first, nested in the caller; `handler` is this nested run.
Whatever the disposition, and whether or not a handler returns, the process
ends. -/
def abort (b : Build) (handler : World → World) (w : World) : World × Flow :=
  let w := w.call Event.abort
  match dispositionOf b.SIGABRT w.trace with
  | some SigDisposition.NonCtrlHandler => (handler w, Flow.neverReturns)
  | _ => (w, Flow.neverReturns)

/-! ## The signal handler -/

/-- Lines 83 to 86 and 98 to 101: the two build lines, compiled in when
`BUILD_ID` is defined. -/
def logBuildInfo (b : Build) (w : World) : World :=
  match b.buildInfo with
  | some i =>
    (w.call (Event.LOGERROR ("MCServer " ++ i.BUILD_SERIES_NAME ++ " build id: " ++ i.BUILD_ID))).call
      (Event.LOGERROR ("from commit id: " ++ i.BUILD_COMMIT_ID ++ " built at: " ++ i.BUILD_DATETIME))
  | none => w

/-- Lines 78 to 89: the block of `case SIGSEGV`. It resets the disposition of
SIGSEGV only, ends with `abort()` and has no `break`. -/
def caseSIGSEGV (b : Build) (nested : World → World) (w : World) : World × Flow :=
  let w := w.call (Event.signal b.SIGSEGV SigDisposition.SIG_DFL)
  let w := w.call (Event.LOGERROR "  D:    | MCServer has encountered an error and needs to close")
  let w := w.call (Event.LOGERROR "Details | SIGSEGV: Segmentation fault")
  let w := logBuildInfo b w
  let w := w.call Event.PrintStackTrace
  abort b nested w

/-- Lines 90 to 104: the block of `case SIGABRT` and `case SIGABRT_COMPAT`. -/
def caseSIGABRT (b : Build) (nested : World → World) (a_Signal : Int) (w : World) :
    World × Flow :=
  let w := w.call (Event.signal a_Signal SigDisposition.SIG_DFL)
  let w := w.call (Event.LOGERROR "  D:    | MCServer has encountered an error and needs to close")
  let w := w.call
    (Event.LOGERROR "Details | SIGABRT: Server self-terminated due to an internal fault")
  let w := logBuildInfo b w
  let w := w.call Event.PrintStackTrace
  abort b nested w

/-- Lines 105 to 110: the block of `case SIGINT` and `case SIGTERM`. -/
def caseSIGINT (a_Signal : Int) (w : World) : World × Flow :=
  (w.call (Event.signal a_Signal SigDisposition.SIG_IGN), Flow.breaks)

/-- The four blocks of the switch at line 76, in source order. -/
def NonCtrlHandlerBlocks (b : Build) (nested : World → World) (a_Signal : Int) :
    List (CaseBlock Int) :=
  [ { labels := [b.SIGSEGV], isDefault := false, body := caseSIGSEGV b nested },
    { labels := b.SIGABRT :: b.SIGABRT_COMPAT.toList, isDefault := false,
      body := caseSIGABRT b nested a_Signal },
    { labels := [b.SIGINT, b.SIGTERM], isDefault := false, body := caseSIGINT a_Signal },
    { labels := [], isDefault := true, body := fun w => (w, Flow.breaks) } ]

/-- Lines 71 to 113, the body of `NonCtrlHandler`; `nested` is the run of the
handler that a call of `abort()` in this body starts when SIGABRT is routed to
the handler. -/
def NonCtrlHandlerWith (b : Build) (nested : World → World) (a_Signal : Int) (w : World) :
    World × Completion :=
  let w := w.call (Event.LOGD "Terminate event raised from std::signal")
  let w := w.write Global.m_TerminateEventRaised true
  match switchOn a_Signal (NonCtrlHandlerBlocks b nested a_Signal) w with
  | (w', Flow.neverReturns) => (w', Completion.aborted)
  | (w', _) => (w', Completion.returned)

/-- The run of `NonCtrlHandler` that `abort()` starts by raising SIGABRT. This
run takes the block of `case SIGSEGV` or of `case SIGABRT` and resets the
disposition of SIGABRT before it calls `abort()` in its turn, so that call
finds `SIG_DFL` and starts no third run: what stands for a third run here is
never used (`NonCtrlHandlerWith_SIGABRT_nested`). -/
def nestedNonCtrlHandler (b : Build) (w : World) : World :=
  (NonCtrlHandlerWith b (fun w' => w') b.SIGABRT w).1

/-- Lines 71 to 113, `NonCtrlHandler`. -/
def NonCtrlHandler (b : Build) (a_Signal : Int) (w : World) : World × Completion :=
  NonCtrlHandlerWith b (nestedNonCtrlHandler b) a_Signal w

/-! ## The console handler -/

/-- Lines 194 to 197: the wait loop of `CtrlHandler`. `g_ServerTerminated` is
written by the thread that runs `universalMain`; `seen k` is the value that
evaluation number `k` of the loop condition reads. The second component tells
whether the loop was left within `fuel` evaluations. -/
def CtrlHandlerWait (seen : Nat → Bool) : Nat → Nat → World → World × Bool
  | 0, _, w => (w, false)
  | fuel + 1, k, w =>
    if seen k then (w, true)
    else CtrlHandlerWait seen fuel (k + 1) (w.call (Event.sleep_for 50))

/-- Lines 189 to 200, `CtrlHandler`. The second component is `true` when the
handler has returned `TRUE`, `false` when it is still waiting. -/
def CtrlHandler (seen : Nat → Bool) (fuel : Nat) (_fdwCtrlType : Nat) (w : World) : World × Bool :=
  let w := w.write Global.m_TerminateEventRaised true
  let w := w.call (Event.LOGD "Terminate event raised from the Windows CtrlHandler")
  CtrlHandlerWait seen fuel 0 w

/-! ## The supervisor -/

/-- Modelled from the spec: how `cRoot::Start` ends (`Root.cpp` is not part of
the sources at hand). The spec has it as `start(config) -> void`, "expected to
run until it observes StopFlag or encounters an unrecoverable internal error,
at which point it returns or raises": it returns, it throws a `std::exception`,
or it throws something else. It reads the globals of `main.cpp` and does not
write them. -/
inductive StartOutcome
  | returned
  | stdException (what : String)
  | otherException
  deriving DecidableEq, Repr

/-- An exception that leaves a function of `main.cpp`. -/
inductive Thrown
  | stdException (what : String)
  | other
  | immutableConfig
  deriving DecidableEq, Repr

/-- Lines 243 to 246: the end of `universalMain`. -/
def universalMainEnd (w : World) : World :=
  let w := w.write Global.g_ServerTerminated true
  let w := w.call Event.NetworkSingletonGet
  w.call Event.NetworkSingletonTerminate

/-- Lines 210 to 247, `universalMain`. The block `cRoot Root; Root.Start(...)`
is the single event `RootStart` with the repository it is given; how it ends
is the argument `o`. The `try` and its handlers are compiled in unless
`ANDROID_NDK` is defined. The second component is the exception that leaves
the function, if any. -/
def universalMain (b : Build) (h : Host) (o : StartOutcome)
    (overridesRepo : cMemorySettingsRepository) (w : World) : World × Option Thrown :=
  let w :=
    if b.WIN32 then
      let w := w.call Event.SetConsoleCtrlHandler
      if !h.SetConsoleCtrlHandler then
        w.call (Event.LOGERROR "Could not install the Windows CTRL handler!")
      else w
    else w
  let w := w.call Event.InitiateMultithreading
  let w := w.call Event.NetworkSingletonGet
  let w := w.call (Event.RootStart overridesRepo)
  match o, b.ANDROID_NDK with
  | StartOutcome.returned, _ => (universalMainEnd w, none)
  | StartOutcome.stdException what, false =>
    (universalMainEnd (w.call (Event.LOGERROR ("Standard exception: " ++ what))), none)
  | StartOutcome.otherException, false =>
    (universalMainEnd (w.call (Event.LOGERROR "Unknown exception!")), none)
  | StartOutcome.stdException what, true => (w, some (Thrown.stdException what))
  | StartOutcome.otherException, true => (w, some Thrown.other)

/-! ## The Windows service -/

/-- Lines 256 to 264, `serviceWorkerThread`. -/
def serviceWorkerThread (b : Build) (h : Host) (o : StartOutcome) (w : World) :
    World × Option Thrown :=
  universalMain b h o cMemorySettingsRepository.new w

/-- Lines 272 to 288, `serviceSetState`. -/
def serviceSetState (h : Host) (acceptedControls newState exitCode : Nat) (w : World) : World :=
  let w := w.call (Event.SetServiceStatus acceptedControls newState exitCode)
  if !h.SetServiceStatus then w.call (Event.LOGERROR "SetServiceStatus() failed\n") else w

/-- The two blocks of the switch at line 298. -/
def serviceCtrlHandlerBlocks (b : Build) (h : Host) : List (CaseBlock Nat) :=
  [ { labels := [b.SERVICE_CONTROL_STOP], isDefault := false,
      body := fun w =>
        let w := w.write Global.m_ShouldStop true
        let w := serviceSetState h 0 b.SERVICE_STOP_PENDING 0 w
        (w, Flow.breaks) },
    { labels := [], isDefault := true, body := fun w => (w, Flow.breaks) } ]

/-- Lines 296 to 312, `serviceCtrlHandler`. -/
def serviceCtrlHandler (b : Build) (h : Host) (CtrlCode : Nat) (w : World) : World :=
  (switchOn CtrlCode (serviceCtrlHandlerBlocks b h) w).1

/-- Lines 320 to 362, `serviceMain`. Lines 326 to 337 compute the directory of
the binary and make it the working directory: the event `SetCurrentDirectory`.
The worker thread runs between `CreateThread` and the return of
`WaitForSingleObject`. An exception that leaves the worker thread ends the
process. -/
def serviceMain (b : Build) (h : Host) (o : StartOutcome) (w : World) : World × Option Thrown :=
  let w := w.call Event.SetCurrentDirectory
  let w := w.call Event.RegisterServiceCtrlHandler
  if !h.RegisterServiceCtrlHandler then
    let w := w.call (Event.OutputDebugStringA "RegisterServiceCtrlHandler() failed\n")
    (serviceSetState h 0 b.SERVICE_STOPPED h.GetLastError w, none)
  else
    let w := serviceSetState h b.SERVICE_ACCEPT_STOP b.SERVICE_RUNNING 0 w
    let w := w.call Event.CreateThread
    if !h.CreateThread then
      let w := w.call (Event.OutputDebugStringA "CreateThread() failed\n")
      (serviceSetState h 0 b.SERVICE_STOPPED h.GetLastError w, none)
    else
      match serviceWorkerThread b h o w with
      | (w, some t) => (w, some t)
      | (w, none) =>
        let w := w.call Event.WaitForSingleObject
        let w := w.call Event.CloseHandle
        (serviceSetState h 0 b.SERVICE_STOPPED 0 w, none)

/-! ## The entry point -/

/-- How `main` ends: with an exit code, or by an exception nobody catches. -/
inductive MainResult
  | exit (code : Nat)
  | uncaught (t : Thrown)
  deriving DecidableEq, Repr

/-- Lines 490 to 498: the signal handlers, installed unless `_DEBUG` is
defined. -/
def installSignalHandlers (b : Build) (w : World) : World :=
  if b.DEBUG then w
  else
    let w := w.call (Event.signal b.SIGSEGV SigDisposition.NonCtrlHandler)
    let w := w.call (Event.signal b.SIGTERM SigDisposition.NonCtrlHandler)
    let w := w.call (Event.signal b.SIGINT SigDisposition.NonCtrlHandler)
    let w := w.call (Event.signal b.SIGABRT SigDisposition.NonCtrlHandler)
    match b.SIGABRT_COMPAT with
    | some s => w.call (Event.signal s SigDisposition.NonCtrlHandler)
    | none => w

/-- Lines 447 to 533, `main`. The leak finder, the dump-file set-up and the CRT
debug flags (lines 450 to 488) touch none of the globals above and are left
out. In service mode `StartServiceCtrlDispatcher` runs `serviceMain` and
returns when the service has stopped. -/
def main (b : Build) (h : Host) (parse : Parser) (o : StartOutcome) (argv : List String)
    (w : World) : World × MainResult :=
  let w := installSignalHandlers b w
  match parseArguments parse argv w with
  | (w, .error _) => (w, MainResult.uncaught Thrown.immutableConfig)
  | (w, .ok argsRepo) =>
    if b.WIN32 && w.mem Global.m_RunAsService then
      let w := w.call Event.StartServiceCtrlDispatcher
      if !h.StartServiceCtrlDispatcher then
        (w.call (Event.LOGERROR "Attempted, but failed, service startup."),
          MainResult.exit h.GetLastError)
      else
        match serviceMain b h o w with
        | (w, some t) => (w, MainResult.uncaught t)
        | (w, none) => (w, MainResult.exit 0)
    else
      match universalMain b h o argsRepo w with
      | (w, some t) => (w, MainResult.uncaught t)
      | (w, none) => (w, MainResult.exit 0)

/-! ## Observations on traces -/

/-- The repositories handed to `Root.Start`, in order. -/
def startedWith : List Event → List cMemorySettingsRepository
  | [] => []
  | Event.RootStart r :: es => r :: startedWith es
  | _ :: es => startedWith es

/-- The memory after the stores of a trace, from the memory `m`. -/
def replay (m : Global → Bool) : List Event → Global → Bool
  | [] => m
  | Event.write g v :: es => replay (fun x => if x = g then v else m x) es
  | _ :: es => replay m es

/-- What `CtrlHandler` reads from `g_ServerTerminated` while another thread
performs the events `es` from the memory `m`: by evaluation number `k` of the
loop condition that thread has performed the first `progress k` events. -/
def seenDuring (m : Global → Bool) (es : List Event) (progress : Nat → Nat) (k : Nat) : Bool :=
  replay m (es.take (progress k)) Global.g_ServerTerminated

/-- The event is a `LOGERROR` line. -/
def Event.isLOGERROR : Event → Bool
  | Event.LOGERROR _ => true
  | _ => false

/-! ## Operations of `main.cpp` as steps -/

/-- One operation of `main.cpp` with its arguments. -/
inductive Op
  | NonCtrlHandler (a_Signal : Int)
  | CtrlHandler (seen : Nat → Bool) (fuel : Nat) (fdwCtrlType : Nat)
  | serviceCtrlHandler (CtrlCode : Nat)
  | parseArguments (parse : Parser) (argv : List String)
  | universalMain (o : StartOutcome) (overridesRepo : cMemorySettingsRepository)

/-- The world after one operation, and whether the process goes on (it does
not after `abort()` or an exception nobody catches). -/
def step (b : Build) (h : Host) : Op → World → World × Bool
  | Op.NonCtrlHandler s, w =>
    match NonCtrlHandler b s w with
    | (w', Completion.returned) => (w', true)
    | (w', Completion.aborted) => (w', false)
  | Op.CtrlHandler seen fuel c, w => ((CtrlHandler seen fuel c w).1, true)
  | Op.serviceCtrlHandler c, w => (serviceCtrlHandler b h c w, true)
  | Op.parseArguments parse argv, w =>
    match parseArguments parse argv w with
    | (w', .ok _) => (w', true)
    | (w', .error _) => (w', false)
  | Op.universalMain o r, w =>
    match universalMain b h o r w with
    | (w', none) => (w', true)
    | (w', some _) => (w', false)

/-- The world after a sequence of operations; the sequence stops when the
process does. -/
def runOps (b : Build) (h : Host) : List Op → World → World
  | [], w => w
  | op :: ops, w =>
    match step b h op w with
    | (w', true) => runOps b h ops w'
    | (w', false) => w'

/-! ## Inputs used in the worked examples -/

/-- The command line `--max-players 20 -p 25565 -p 25566` after parsing. -/
def scenarioCmdLine : CmdLine :=
  { slots := some 20, ports := [25565, 25566], commLog := false, commLogIn := false,
    commLogOut := false, noBuf := false, runAsService := false }

/-- A parser that answers with `scenarioCmdLine`. -/
def scenarioParser : Parser := fun _ => .ok scenarioCmdLine

/-- The command line `--log-comm --log-comm-in` after parsing. -/
def logCommCmdLine : CmdLine :=
  { slots := none, ports := [], commLog := true, commLogIn := true,
    commLogOut := false, noBuf := false, runAsService := false }

/-- The command line `-d -p 25565` after parsing. -/
def serviceCmdLine : CmdLine :=
  { slots := none, ports := [25565], commLog := false, commLogIn := false,
    commLogOut := false, noBuf := false, runAsService := true }

/-- A parser that rejects the command line, as TCLAP does for `-s abc`. -/
def failingParser : Parser := fun _ =>
  .error { error := "Could not read argument value from string abc",
           argId := "-s (--max-players)" }

/-! ## Auxiliary facts -/

@[simp] theorem World.mem_call (w : World) (e : Event) : (w.call e).mem = w.mem := rfl

@[simp] theorem World.trace_call (w : World) (e : Event) : (w.call e).trace = w.trace ++ [e] := rfl

@[simp] theorem World.mem_write (w : World) (g : Global) (v : Bool) (x : Global) :
    (w.write g v).mem x = if x = g then v else w.mem x := rfl

@[simp] theorem World.trace_write (w : World) (g : Global) (v : Bool) :
    (w.write g v).trace = w.trace ++ [Event.write g v] := rfl

theorem appendValue_absent (k : RepoKey) (v : Int) (m : List (RepoKey × List Int))
    (hk : ∀ e ∈ m, e.1 ≠ k) : appendValue k v m = m ++ [(k, [v])] := by
  induction m with
  | nil => rfl
  | cons e m ih =>
    obtain ⟨k', vs⟩ := e
    have h1 : k' ≠ k := hk (k', vs) (List.mem_cons_self _ _)
    have h2 : ∀ e ∈ m, e.1 ≠ k := fun e he => hk e (List.mem_cons_of_mem _ he)
    simp [appendValue, h1, ih h2]

theorem appendValue_last (k : RepoKey) (v : Int) (vs : List Int) (m : List (RepoKey × List Int))
    (hk : ∀ e ∈ m, e.1 ≠ k) : appendValue k v (m ++ [(k, vs)]) = m ++ [(k, vs ++ [v])] := by
  induction m with
  | nil => simp [appendValue]
  | cons e m ih =>
    obtain ⟨k', ws⟩ := e
    have h1 : k' ≠ k := hk (k', ws) (List.mem_cons_self _ _)
    have h2 : ∀ e ∈ m, e.1 ≠ k := fun e he => hk e (List.mem_cons_of_mem _ he)
    simp [appendValue, h1, ih h2]

theorem AddValue_writable (a b : String) (v : Int) (m : List (RepoKey × List Int)) :
    cMemorySettingsRepository.AddValue { m_Map := m, m_Writable := true } a b v
      = .ok { m_Map := appendValue (a, b) v m, m_Writable := true } := rfl

theorem foldlM_AddValue_last (a b : String) (ps vs : List Int) (m : List (RepoKey × List Int))
    (hk : ∀ e ∈ m, e.1 ≠ (a, b)) :
    ps.foldlM (fun r port => cMemorySettingsRepository.AddValue r a b port)
        ({ m_Map := m ++ [((a, b), vs)], m_Writable := true } : cMemorySettingsRepository)
      = .ok { m_Map := m ++ [((a, b), vs ++ ps)], m_Writable := true } := by
  induction ps generalizing vs with
  | nil => simp [pure, Except.pure]
  | cons p ps ih =>
    rw [List.foldlM_cons, AddValue_writable, appendValue_last (a, b) p vs m hk]
    show List.foldlM _ _ ps = _
    rw [ih (vs ++ [p])]
    simp

theorem foldlM_AddValue_absent (a b : String) (p : Int) (ps : List Int)
    (m : List (RepoKey × List Int)) (hk : ∀ e ∈ m, e.1 ≠ (a, b)) :
    (p :: ps).foldlM (fun r port => cMemorySettingsRepository.AddValue r a b port)
        ({ m_Map := m, m_Writable := true } : cMemorySettingsRepository)
      = .ok { m_Map := m ++ [((a, b), p :: ps)], m_Writable := true } := by
  rw [List.foldlM_cons, AddValue_writable, appendValue_absent (a, b) p m hk]
  show List.foldlM _ _ ps = _
  rw [foldlM_AddValue_last a b ps [p] m hk]
  simp

/-- The repository that `parseArguments` builds from a parsed command line. -/
theorem parseArguments_ok (parse : Parser) (argv : List String) (w : World) (a : CmdLine)
    (hparse : parse argv = .ok a) :
    (parseArguments parse argv w).2 = .ok
      { m_Map := (a.slots.toList.map fun n => (("Server", "MaxPlayers"), [n])) ++
          (if a.ports = [] then [] else [(("Server", "Port"), a.ports)]),
        m_Writable := false } := by
  obtain ⟨slots, ports, c, ci, co, nb, rs⟩ := a
  unfold parseArguments
  rw [hparse]
  cases slots with
  | none =>
    cases ports with
    | nil => rfl
    | cons p ps =>
      have h := foldlM_AddValue_absent "Server" "Port" p ps [] (by simp)
      simp only [List.nil_append] at h
      simp only [ValueArg.isSet, MultiArg.isSet, MultiArg.getValue, cMemorySettingsRepository.new,
        Option.isSome, List.isEmpty, Bool.not_false, if_true, Bool.false_eq_true, if_false, h]
      simp [cMemorySettingsRepository.SetReadOnly]
  | some n =>
    cases ports with
    | nil => rfl
    | cons p ps =>
      have h := foldlM_AddValue_absent "Server" "Port" p ps [(("Server", "MaxPlayers"), [n])]
        (by simp)
      simp only [ValueArg.isSet, ValueArg.getValue, MultiArg.isSet, MultiArg.getValue,
        cMemorySettingsRepository.new, Option.isSome, Option.getD, List.isEmpty, Bool.not_false,
        if_true, AddValue_writable, appendValue, h]
      simp [cMemorySettingsRepository.SetReadOnly]

theorem fromLabel_subset {α : Type} [DecidableEq α] (v : α) (bs s : List (CaseBlock α))
    (hs : fromLabel v bs = some s) : ∀ c ∈ s, c ∈ bs := by
  induction bs with
  | nil => simp [fromLabel] at hs
  | cons c rest ih =>
    unfold fromLabel at hs
    split at hs
    · cases hs
      intro c' hc'
      exact hc'
    · intro c' hc'
      exact List.mem_cons_of_mem _ (ih hs c' hc')

theorem fromDefault_subset {α : Type} (bs s : List (CaseBlock α))
    (hs : fromDefault bs = some s) : ∀ c ∈ s, c ∈ bs := by
  induction bs with
  | nil => simp [fromDefault] at hs
  | cons c rest ih =>
    unfold fromDefault at hs
    split at hs
    · cases hs
      intro c' hc'
      exact hc'
    · intro c' hc'
      exact List.mem_cons_of_mem _ (ih hs c' hc')

theorem runBlocks_inv {α : Type} (P : World → Prop) (bs : List (CaseBlock α))
    (hb : ∀ c ∈ bs, ∀ w, P w → P (c.body w).1) (w : World) (hw : P w) :
    P (runBlocks bs w).1 := by
  induction bs generalizing w with
  | nil => exact hw
  | cons c rest ih =>
    have hc := hb c (List.mem_cons_self _ _) w hw
    have hrest : ∀ c ∈ rest, ∀ w, P w → P (c.body w).1 :=
      fun c' hc' => hb c' (List.mem_cons_of_mem _ hc')
    unfold runBlocks
    rcases hbody : c.body w with ⟨w', fl⟩
    rw [hbody] at hc
    cases fl
    · exact ih hrest w' hc
    · exact hc
    · exact hc

theorem switchOn_inv {α : Type} [DecidableEq α] (P : World → Prop) (v : α)
    (bs : List (CaseBlock α)) (hb : ∀ c ∈ bs, ∀ w, P w → P (c.body w).1) (w : World)
    (hw : P w) : P (switchOn v bs w).1 := by
  unfold switchOn
  cases h1 : fromLabel v bs with
  | some s =>
    exact runBlocks_inv P s (fun c hc => hb c (fromLabel_subset v bs s h1 c hc)) w hw
  | none =>
    cases h2 : fromDefault bs with
    | some s =>
      exact runBlocks_inv P s (fun c hc => hb c (fromDefault_subset bs s h2 c hc)) w hw
    | none => exact hw

theorem switchOn_mem {α : Type} [DecidableEq α] (g : Global) (v : α) (bs : List (CaseBlock α))
    (hb : ∀ c ∈ bs, ∀ w, (c.body w).1.mem g = w.mem g) (w : World) :
    (switchOn v bs w).1.mem g = w.mem g :=
  switchOn_inv (fun w' => w'.mem g = w.mem g) v bs
    (fun c hc w' hw' => (hb c hc w').trans hw') w rfl

theorem logBuildInfo_mem (b : Build) (w : World) : (logBuildInfo b w).mem = w.mem := by
  unfold logBuildInfo
  cases b.buildInfo <;> rfl

theorem logBuildInfo_trace (b : Build) :
    ∃ ls : List Event, (∀ e ∈ ls, e.isLOGERROR = true) ∧
      ∀ w : World, (logBuildInfo b w).trace = w.trace ++ ls := by
  unfold logBuildInfo
  cases b.buildInfo with
  | none => exact ⟨[], by simp, fun w => by simp⟩
  | some i =>
    exact ⟨[Event.LOGERROR ("MCServer " ++ i.BUILD_SERIES_NAME ++ " build id: " ++ i.BUILD_ID),
        Event.LOGERROR ("from commit id: " ++ i.BUILD_COMMIT_ID ++ " built at: " ++
          i.BUILD_DATETIME)],
      by simp [Event.isLOGERROR], fun w => by simp⟩

theorem abort_mem_flag (b : Build) (nested : World → World)
    (hn : ∀ w, w.mem Global.m_TerminateEventRaised = true →
      (nested w).mem Global.m_TerminateEventRaised = true)
    (w : World) (hw : w.mem Global.m_TerminateEventRaised = true) :
    (abort b nested w).1.mem Global.m_TerminateEventRaised = true := by
  unfold abort
  simp only
  split
  · exact hn _ hw
  · exact hw

theorem NonCtrlHandlerWith_mem_flag (b : Build) (nested : World → World)
    (hn : ∀ w, w.mem Global.m_TerminateEventRaised = true →
      (nested w).mem Global.m_TerminateEventRaised = true)
    (a_Signal : Int) (w : World) :
    (NonCtrlHandlerWith b nested a_Signal w).1.mem Global.m_TerminateEventRaised = true := by
  have hsw := switchOn_inv (fun w' => w'.mem Global.m_TerminateEventRaised = true) a_Signal
    (NonCtrlHandlerBlocks b nested a_Signal)
    (by
      intro c hc w' hw'
      simp only [NonCtrlHandlerBlocks, List.mem_cons, List.mem_singleton, List.not_mem_nil,
        or_false] at hc
      rcases hc with rfl | rfl | rfl | rfl
      · exact abort_mem_flag b nested hn _ (by simpa [logBuildInfo_mem] using hw')
      · exact abort_mem_flag b nested hn _ (by simpa [logBuildInfo_mem] using hw')
      · simpa [caseSIGINT] using hw'
      · exact hw')
    ((w.call (Event.LOGD "Terminate event raised from std::signal")).write
      Global.m_TerminateEventRaised true) (by simp)
  unfold NonCtrlHandlerWith
  simp only
  rcases hres : switchOn a_Signal (NonCtrlHandlerBlocks b nested a_Signal)
    ((w.call (Event.LOGD "Terminate event raised from std::signal")).write
      Global.m_TerminateEventRaised true) with ⟨w', fl⟩
  rw [hres] at hsw
  cases fl <;> simpa using hsw

theorem NonCtrlHandler_mem_flag (b : Build) (a_Signal : Int) (w : World) :
    (NonCtrlHandler b a_Signal w).1.mem Global.m_TerminateEventRaised = true :=
  NonCtrlHandlerWith_mem_flag b (nestedNonCtrlHandler b)
    (fun w' _ => NonCtrlHandlerWith_mem_flag b (fun w'' => w'') (fun _ h => h) b.SIGABRT w')
    a_Signal w

theorem CtrlHandlerWait_mem (seen : Nat → Bool) (fuel k : Nat) (w : World) :
    (CtrlHandlerWait seen fuel k w).1.mem = w.mem := by
  induction fuel generalizing k w with
  | zero => rfl
  | succ n ih =>
    unfold CtrlHandlerWait
    split
    · rfl
    · rw [ih]
      rfl

theorem CtrlHandler_mem_flag (seen : Nat → Bool) (fuel c : Nat) (w : World) :
    (CtrlHandler seen fuel c w).1.mem Global.m_TerminateEventRaised = true := by
  simp [CtrlHandler, CtrlHandlerWait_mem]

theorem serviceSetState_mem (h : Host) (x y z : Nat) (w : World) :
    (serviceSetState h x y z w).mem = w.mem := by
  unfold serviceSetState
  cases h.SetServiceStatus <;> rfl

theorem serviceCtrlHandler_mem_flag (b : Build) (h : Host) (c : Nat) (w : World) :
    (serviceCtrlHandler b h c w).mem Global.m_TerminateEventRaised
      = w.mem Global.m_TerminateEventRaised := by
  unfold serviceCtrlHandler
  apply switchOn_mem
  intro blk hblk w'
  simp only [serviceCtrlHandlerBlocks, List.mem_cons, List.mem_singleton, List.not_mem_nil,
    or_false] at hblk
  rcases hblk with rfl | rfl
  · simp [serviceSetState_mem]
  · rfl

theorem parseArguments_mem_flag (parse : Parser) (argv : List String) (w : World) :
    (parseArguments parse argv w).1.mem Global.m_TerminateEventRaised
      = w.mem Global.m_TerminateEventRaised := by
  unfold parseArguments
  cases hparse : parse argv with
  | error e => rfl
  | ok a =>
    obtain ⟨slots, ports, c, ci, co, nb, rs⟩ := a
    cases slots <;> cases ports <;>
      simp only [ValueArg.isSet, ValueArg.getValue, MultiArg.isSet, MultiArg.getValue,
        cMemorySettingsRepository.new, Option.isSome, Option.getD, List.isEmpty, Bool.not_false,
        Bool.not_true, if_true, Bool.false_eq_true, if_false, AddValue_writable, appendValue,
        foldlM_AddValue_absent "Server" "Port" _ _ [] (by simp),
        foldlM_AddValue_absent "Server" "Port" _ _ [(("Server", "MaxPlayers"), [_])]
          (by simp)] <;>
      cases c <;> cases ci <;> cases co <;> cases nb <;> cases rs <;>
      simp [SwitchArg.getValue]

theorem universalMain_mem_flag (b : Build) (h : Host) (o : StartOutcome)
    (r : cMemorySettingsRepository) (w : World) :
    (universalMain b h o r w).1.mem Global.m_TerminateEventRaised
      = w.mem Global.m_TerminateEventRaised := by
  unfold universalMain
  cases b.WIN32 <;> cases h.SetConsoleCtrlHandler <;> cases o <;> cases b.ANDROID_NDK <;>
    simp [universalMainEnd]

theorem step_mem_flag (b : Build) (h : Host) (op : Op) (w : World)
    (hw : w.mem Global.m_TerminateEventRaised = true) :
    (step b h op w).1.mem Global.m_TerminateEventRaised = true := by
  cases op with
  | NonCtrlHandler s =>
    have hf := NonCtrlHandler_mem_flag b s w
    simp only [step]
    rcases hres : NonCtrlHandler b s w with ⟨w', c⟩
    rw [hres] at hf
    cases c <;> exact hf
  | CtrlHandler seen fuel c => exact CtrlHandler_mem_flag seen fuel c w
  | serviceCtrlHandler c =>
    show (serviceCtrlHandler b h c w).mem _ = true
    rw [serviceCtrlHandler_mem_flag, hw]
  | parseArguments parse argv =>
    have hf := parseArguments_mem_flag parse argv w
    simp only [step]
    rcases hres : parseArguments parse argv w with ⟨w', c⟩
    rw [hres] at hf
    cases c <;> simpa [hw] using hf
  | universalMain o r =>
    have hf := universalMain_mem_flag b h o r w
    simp only [step]
    rcases hres : universalMain b h o r w with ⟨w', c⟩
    rw [hres] at hf
    cases c <;> simpa [hw] using hf

theorem runOps_mem_flag (b : Build) (h : Host) (ops : List Op) (w : World)
    (hw : w.mem Global.m_TerminateEventRaised = true) :
    (runOps b h ops w).mem Global.m_TerminateEventRaised = true := by
  induction ops generalizing w with
  | nil => exact hw
  | cons op ops ih =>
    have hstep := step_mem_flag b h op w hw
    unfold runOps
    rcases hs : step b h op w with ⟨w', alive⟩
    rw [hs] at hstep
    cases alive
    · exact hstep
    · exact ih w' hstep

theorem runOps_append (b : Build) (h : Host) (xs ys : List Op) (w : World) :
    runOps b h (xs ++ ys) w = runOps b h xs w ∨
      runOps b h (xs ++ ys) w = runOps b h ys (runOps b h xs w) := by
  induction xs generalizing w with
  | nil => right; rfl
  | cons op xs ih =>
    simp only [List.cons_append, runOps]
    rcases hs : step b h op w with ⟨w', alive⟩
    cases alive
    · left; rfl
    · exact ih w'

theorem dispositionOf_append_signal (sig : Int) (d : SigDisposition) (xs : List Event) :
    dispositionOf sig (xs ++ [Event.signal sig d]) = some d := by
  induction xs with
  | nil => simp [dispositionOf]
  | cons e xs ih => cases e <;> simp [dispositionOf, ih]

theorem dispositionOf_append_single (sig : Int) (zs : List Event) (e : Event)
    (he : ∀ s d, e ≠ Event.signal s d) :
    dispositionOf sig (zs ++ [e]) = dispositionOf sig zs := by
  induction zs with
  | nil =>
    cases e <;> first | rfl | exact absurd rfl (he _ _)
  | cons z zs ihz => cases z <;> simp [dispositionOf, ihz]

theorem dispositionOf_append_other (sig : Int) (xs ys : List Event)
    (hys : ∀ e ∈ ys, ∀ s d, e ≠ Event.signal s d) :
    dispositionOf sig (xs ++ ys) = dispositionOf sig xs := by
  induction ys using List.reverseRecOn with
  | nil => simp
  | append_singleton ys e ih =>
    have he := hys e (by simp)
    have hys' : ∀ e ∈ ys, ∀ s d, e ≠ Event.signal s d := fun e' he' => hys e' (by simp [he'])
    rw [← List.append_assoc, dispositionOf_append_single sig (xs ++ ys) e he, ih hys']

theorem NonCtrlHandler_graceful_eq (b : Build) (hb : b.labelsDistinct = true) (a_Signal : Int)
    (hs : a_Signal = b.SIGINT ∨ a_Signal = b.SIGTERM) (w : World) :
    NonCtrlHandler b a_Signal w =
      ((((w.call (Event.LOGD "Terminate event raised from std::signal")).write
          Global.m_TerminateEventRaised true).call
          (Event.signal a_Signal SigDisposition.SIG_IGN)), Completion.returned) := by
  obtain ⟨segv, abrt, compat, int, term, _, _, _, _, _, _, _, _, _⟩ := b
  simp only [Build.labelsDistinct, Build.caseLabels, decide_eq_true_eq] at hb
  simp only at hs
  cases compat with
  | none =>
    simp only [Option.toList, List.append_nil, List.cons_append, List.nil_append, List.nodup_cons,
      List.mem_cons, List.mem_singleton, not_or, List.not_mem_nil, not_false_eq_true,
      List.nodup_nil, and_true] at hb
    obtain ⟨⟨h1, h2, h3⟩, ⟨h4, h5⟩, h6⟩ := hb
    rcases hs with rfl | rfl <;>
      simp [NonCtrlHandler, NonCtrlHandlerWith, switchOn, NonCtrlHandlerBlocks, fromLabel,
        runBlocks, caseSIGINT,
        Ne.symm h2, Ne.symm h3, Ne.symm h4, Ne.symm h5]
  | some c =>
    simp only [Option.toList, List.cons_append, List.nil_append, List.nodup_cons,
      List.mem_cons, List.mem_singleton, not_or, List.not_mem_nil, not_false_eq_true,
      List.nodup_nil, and_true, List.singleton_append] at hb
    obtain ⟨⟨h1, h2, h3, h4⟩, ⟨h5, h6, h7⟩, ⟨h8, h9⟩, h10⟩ := hb
    rcases hs with rfl | rfl <;>
      simp [NonCtrlHandler, NonCtrlHandlerWith, switchOn, NonCtrlHandlerBlocks, fromLabel,
        runBlocks, caseSIGINT,
        Ne.symm h3, Ne.symm h4, Ne.symm h6, Ne.symm h7, Ne.symm h8, Ne.symm h9]

theorem abort_after_reset (b : Build) (f : World → World) (w0 : World) (d1 d2 : String) :
    abort b f ((logBuildInfo b (((w0.call (Event.signal b.SIGABRT SigDisposition.SIG_DFL)).call
        (Event.LOGERROR d1)).call (Event.LOGERROR d2))).call Event.PrintStackTrace)
      = (((logBuildInfo b (((w0.call (Event.signal b.SIGABRT SigDisposition.SIG_DFL)).call
          (Event.LOGERROR d1)).call (Event.LOGERROR d2))).call Event.PrintStackTrace).call
            Event.abort, Flow.neverReturns) := by
  obtain ⟨ls, hls, htr⟩ := logBuildInfo_trace b
  have hd : dispositionOf b.SIGABRT
      (((logBuildInfo b (((w0.call (Event.signal b.SIGABRT SigDisposition.SIG_DFL)).call
        (Event.LOGERROR d1)).call (Event.LOGERROR d2))).call Event.PrintStackTrace).call
          Event.abort).trace = some SigDisposition.SIG_DFL := by
    have e1 : (((logBuildInfo b (((w0.call (Event.signal b.SIGABRT SigDisposition.SIG_DFL)).call
        (Event.LOGERROR d1)).call (Event.LOGERROR d2))).call Event.PrintStackTrace).call
          Event.abort).trace
        = (w0.trace ++ [Event.signal b.SIGABRT SigDisposition.SIG_DFL]) ++
          ([Event.LOGERROR d1, Event.LOGERROR d2] ++ ls ++
            [Event.PrintStackTrace, Event.abort]) := by
      simp [htr]
    rw [e1, dispositionOf_append_other, dispositionOf_append_signal]
    intro e he s' d'
    simp only [List.mem_append, List.mem_cons, List.mem_singleton, List.not_mem_nil,
      or_false] at he
    rcases he with ((rfl | rfl) | he) | rfl | rfl
    · simp
    · simp
    · intro heq
      have := hls e he
      rw [heq] at this
      cases this
    · simp
    · simp
  unfold abort
  simp only
  rw [hd]

theorem NonCtrlHandlerWith_SIGABRT_nested (b : Build) (f g : World → World) (w : World) :
    NonCtrlHandlerWith b f b.SIGABRT w = NonCtrlHandlerWith b g b.SIGABRT w := by
  by_cases h : b.SIGABRT = b.SIGSEGV
  · have hf := fun k : World → World => abort_after_reset b k
      ((w.call (Event.LOGD "Terminate event raised from std::signal")).write
        Global.m_TerminateEventRaised true)
      "  D:    | MCServer has encountered an error and needs to close"
      "Details | SIGSEGV: Segmentation fault"
    rw [h] at hf
    simp only [NonCtrlHandlerWith, switchOn, NonCtrlHandlerBlocks, fromLabel, h,
      List.mem_singleton, if_true, runBlocks, caseSIGSEGV, hf]
  · have hf := fun k : World → World => abort_after_reset b k
      ((w.call (Event.LOGD "Terminate event raised from std::signal")).write
        Global.m_TerminateEventRaised true)
      "  D:    | MCServer has encountered an error and needs to close"
      "Details | SIGABRT: Server self-terminated due to an internal fault"
    simp only [NonCtrlHandlerWith, switchOn, NonCtrlHandlerBlocks, fromLabel, h,
      List.mem_singleton, if_false, List.mem_cons, true_or, if_true, runBlocks, caseSIGABRT, hf,
      List.not_mem_nil, or_false]

/-- The events of `universalMain` on a run that no exception leaves: the
optional installation of the console handler, the two initialisations, the
start of the root application, the line logged for a caught exception, and the
three final steps. -/
theorem universalMain_trace (b : Build) (h : Host) (o : StartOutcome)
    (r : cMemorySettingsRepository) (w : World)
    (hb : b.ANDROID_NDK = false ∨ o = StartOutcome.returned) :
    (universalMain b h o r w).2 = none ∧
      (universalMain b h o r w).1.mem Global.g_ServerTerminated = true ∧
      (universalMain b h o r w).1.trace = w.trace ++
        ((if b.WIN32 then
            Event.SetConsoleCtrlHandler ::
              (if h.SetConsoleCtrlHandler then []
               else [Event.LOGERROR "Could not install the Windows CTRL handler!"])
          else []) ++
          [Event.InitiateMultithreading, Event.NetworkSingletonGet, Event.RootStart r] ++
          (match o with
            | StartOutcome.returned => []
            | StartOutcome.stdException what =>
              [Event.LOGERROR ("Standard exception: " ++ what)]
            | StartOutcome.otherException => [Event.LOGERROR "Unknown exception!"])) ++
        [Event.write Global.g_ServerTerminated true, Event.NetworkSingletonGet,
          Event.NetworkSingletonTerminate] := by
  obtain ⟨_, _, _, _, _, _, _, _, _, _, _, win, _, ndk⟩ := b
  obtain ⟨sc, _, _, _, _, _⟩ := h
  simp only at hb
  cases win <;> cases sc <;> cases o <;> cases ndk <;>
    first
    | (rcases hb with hb | hb <;> cases hb; done)
    | simp [universalMain, universalMainEnd]

theorem serviceSetState_trace (h : Host) (x y z : Nat) (w : World) :
    (serviceSetState h x y z w).trace = w.trace ++
      (Event.SetServiceStatus x y z ::
        (if h.SetServiceStatus then [] else [Event.LOGERROR "SetServiceStatus() failed\n"])) := by
  unfold serviceSetState
  cases h.SetServiceStatus <;> simp

theorem universalMain_shape (b : Build) (h : Host) (o : StartOutcome)
    (r : cMemorySettingsRepository) (w : World)
    (hb : b.ANDROID_NDK = false ∨ o = StartOutcome.returned) :
    ∃ pre : List Event,
      (universalMain b h o r w).1.trace = w.trace ++ pre ++
        [Event.write Global.g_ServerTerminated true, Event.NetworkSingletonGet,
          Event.NetworkSingletonTerminate] ∧
      Event.RootStart r ∈ pre ∧
      Event.NetworkSingletonTerminate ∉ pre ∧
      ∀ v, Event.write Global.g_ServerTerminated v ∉ pre := by
  obtain ⟨_, _, h3⟩ := universalMain_trace b h o r w hb
  refine ⟨_, h3, ?_, ?_, ?_⟩
  · simp
  · cases b.WIN32 <;> cases h.SetConsoleCtrlHandler <;> cases o <;> simp
  · intro v
    cases b.WIN32 <;> cases h.SetConsoleCtrlHandler <;> cases o <;> simp

theorem CtrlHandlerWait_returns (seen : Nat → Bool) (fuel k : Nat) (w : World)
    (hret : (CtrlHandlerWait seen fuel k w).2 = true) :
    ∃ j, k ≤ j ∧ j < k + fuel ∧ seen j = true ∧ ∀ i, k ≤ i → i < j → seen i = false := by
  induction fuel generalizing k w with
  | zero => simp [CtrlHandlerWait] at hret
  | succ n ih =>
    unfold CtrlHandlerWait at hret
    by_cases hk : seen k = true
    · exact ⟨k, le_refl k, by omega, hk, fun i h1 h2 => by omega⟩
    · rw [if_neg hk] at hret
      obtain ⟨j, h1, h2, h3, h4⟩ := ih (k + 1) _ hret
      refine ⟨j, by omega, by omega, h3, ?_⟩
      intro i hi1 hi2
      by_cases hik : i = k
      · subst hik
        simpa using hk
      · exact h4 i (by omega) hi2

theorem CtrlHandlerWait_enough (seen : Nat → Bool) (fuel k j : Nat) (w : World)
    (hkj : k ≤ j) (hj : j < k + fuel) (hseen : seen j = true) :
    (CtrlHandlerWait seen fuel k w).2 = true := by
  induction fuel generalizing k w with
  | zero => omega
  | succ n ih =>
    unfold CtrlHandlerWait
    by_cases hk : seen k = true
    · rw [if_pos hk]
    · rw [if_neg hk]
      have hne : k ≠ j := fun e => hk (e ▸ hseen)
      exact ih (k + 1) _ (by omega) (by omega)

theorem replay_append_write (m : Global → Bool) (xs : List Event) (g : Global) (v : Bool) :
    replay m (xs ++ [Event.write g v]) g = v := by
  induction xs generalizing m with
  | nil => simp [replay]
  | cons e xs ih => cases e <;> simp [replay, ih]

theorem replay_true_mem (m : Global → Bool) (xs : List Event) (g : Global)
    (hm : m g = false) (hr : replay m xs g = true) : Event.write g true ∈ xs := by
  induction xs generalizing m with
  | nil => simp [replay, hm] at hr
  | cons e xs ih =>
    cases e with
    | write g' v =>
      simp only [replay] at hr
      by_cases hg : g = g'
      · subst hg
        cases v
        · exact List.mem_cons_of_mem _ (ih _ (by simp) hr)
        · exact List.mem_cons_self _ _
      · exact List.mem_cons_of_mem _ (ih _ (by simp [hg, hm]) hr)
    | _ => exact List.mem_cons_of_mem _ (ih m hm hr)

theorem mem_take_append_of_not_mem (pre suf : List Event) (n : Nat) (x : Event)
    (hx : x ∈ (pre ++ suf).take n) (hpre : x ∉ pre) : ∀ y ∈ pre, y ∈ (pre ++ suf).take n := by
  rw [List.take_append_eq_append_take] at hx ⊢
  by_cases hn : pre.length ≤ n
  · intro y hy
    rw [List.take_of_length_le hn]
    exact List.mem_append_left _ hy
  · exfalso
    have h0 : n - pre.length = 0 := by omega
    rw [h0, List.take_zero, List.append_nil] at hx
    exact hpre (List.mem_of_mem_take hx)

/-! ## The configuration overlay builder -/

/-- C1: when the command line parses, `parseArguments` returns a repository
that holds under ("Server", "MaxPlayers") the single value given to
`--max-players` (no value when the flag is absent), under ("Server", "Port")
the values given to `--port` in command-line order, no other key, and that is
sealed. -/
theorem parseArguments_repository (parse : Parser) (argv : List String) (w : World) (a : CmdLine)
    (hparse : parse argv = .ok a) :
    ∃ repo, (parseArguments parse argv w).2 = .ok repo ∧
      repo.GetValues "Server" "MaxPlayers" = a.slots.toList ∧
      repo.GetValues "Server" "Port" = a.ports ∧
      (∀ k ∈ repo.keys, k = ("Server", "MaxPlayers") ∨ k = ("Server", "Port")) ∧
      (∀ s k, (s, k) ≠ ("Server", "MaxPlayers") → (s, k) ≠ ("Server", "Port") →
        repo.GetValues s k = []) ∧
      repo.keys.Nodup ∧
      repo.sealed = true := by
  refine ⟨_, parseArguments_ok parse argv w a hparse, ?_⟩
  obtain ⟨slots, ports, c, ci, co, nb, rs⟩ := a
  have hne : (("Server", "Port") == (("Server", "MaxPlayers") : RepoKey)) = false := by decide
  have hne2 : (("Server", "MaxPlayers") == (("Server", "Port") : RepoKey)) = false := by decide
  cases slots with
  | none =>
    cases ports with
    | nil => simp [cMemorySettingsRepository.GetValues, cMemorySettingsRepository.keys,
        cMemorySettingsRepository.sealed, List.lookup]
    | cons p ps =>
      simp only [cMemorySettingsRepository.GetValues, cMemorySettingsRepository.keys,
        cMemorySettingsRepository.sealed, List.lookup, Option.toList, List.map_nil,
        List.nil_append, if_false, List.map_cons, hne2, beq_self_eq_true, Option.getD,
        reduceCtorEq]
      refine ⟨trivial, trivial, by simp, ?_, by simp, rfl⟩
      intro s k _ h2
      have : ((s, k) == (("Server", "Port") : RepoKey)) = false := by
        simpa [beq_eq_false_iff_ne] using h2
      simp [this]
  | some n =>
    cases ports with
    | nil =>
      simp only [cMemorySettingsRepository.GetValues, cMemorySettingsRepository.keys,
        cMemorySettingsRepository.sealed, List.lookup, Option.toList, List.map_nil,
        List.append_nil, if_true, List.map_cons, hne, beq_self_eq_true, Option.getD]
      refine ⟨trivial, trivial, by simp, ?_, by simp, rfl⟩
      intro s k h1 _
      have : ((s, k) == (("Server", "MaxPlayers") : RepoKey)) = false := by
        simpa [beq_eq_false_iff_ne] using h1
      simp [this]
    | cons p ps =>
      simp only [cMemorySettingsRepository.GetValues, cMemorySettingsRepository.keys,
        cMemorySettingsRepository.sealed, List.lookup, Option.toList, List.map_nil,
        if_false, List.map_cons, hne, beq_self_eq_true, Option.getD, reduceCtorEq,
        List.singleton_append]
      refine ⟨trivial, trivial, by simp, ?_, by simp, rfl⟩
      intro s k h1 h2
      have e1 : ((s, k) == (("Server", "MaxPlayers") : RepoKey)) = false := by
        simpa [beq_eq_false_iff_ne] using h1
      have e2 : ((s, k) == (("Server", "Port") : RepoKey)) = false := by
        simpa [beq_eq_false_iff_ne] using h2
      simp [e1, e2]

/-- The scenario of C1: `--max-players 20 -p 25565 -p 25566` gives the sealed
repository with Server.MaxPlayers = [20] and Server.Port = [25565, 25566]. -/
theorem parseArguments_repository_witness :
    ∃ repo,
      (parseArguments scenarioParser
          ["MCServer", "--max-players", "20", "-p", "25565", "-p", "25566"]
          (World.initial false)).2 = .ok repo ∧
      repo.GetValues "Server" "MaxPlayers" = [20] ∧
      repo.GetValues "Server" "Port" = [25565, 25566] ∧
      (∀ k ∈ repo.keys, k = ("Server", "MaxPlayers") ∨ k = ("Server", "Port")) ∧
      (∀ s k, (s, k) ≠ ("Server", "MaxPlayers") → (s, k) ≠ ("Server", "Port") →
        repo.GetValues s k = []) ∧
      repo.keys.Nodup ∧
      repo.sealed = true :=
  parseArguments_repository scenarioParser
    ["MCServer", "--max-players", "20", "-p", "25565", "-p", "25566"]
    (World.initial false) scenarioCmdLine rfl

/-- C2, at the failing input: when TCLAP rejects the command line,
`parseArguments` returns the freshly constructed repository, which is empty
but still writable; `SetReadOnly` is called on the success path only. -/
theorem parseArguments_exception_unsealed :
    (parseArguments failingParser ["MCServer", "-s", "abc"] (World.initial false)).2
        = .ok cMemorySettingsRepository.new ∧
      cMemorySettingsRepository.new.m_Map = [] ∧
      cMemorySettingsRepository.new.sealed = false ∧
      (cMemorySettingsRepository.new.AddValue "Server" "Port" 1).toBool = true ∧
      (cMemorySettingsRepository.new.SetReadOnly.AddValue "Server" "Port" 1).toBool = false := by
  refine ⟨rfl, rfl, rfl, rfl, rfl⟩

/-- C9: when the command line parses, `parseArguments` leaves
`g_ShouldLogCommIn` equal to (log-comm or log-comm-in) and `g_ShouldLogCommOut`
equal to (log-comm or log-comm-out), whatever the two toggles held before; with
`--log-comm` both are true. -/
theorem parseArguments_logging_toggles (parse : Parser) (argv : List String) (w : World)
    (a : CmdLine) (hparse : parse argv = .ok a) :
    (parseArguments parse argv w).1.mem Global.g_ShouldLogCommIn = (a.commLog || a.commLogIn) ∧
      (parseArguments parse argv w).1.mem Global.g_ShouldLogCommOut
        = (a.commLog || a.commLogOut) ∧
      (a.commLog = true →
        (parseArguments parse argv w).1.mem Global.g_ShouldLogCommIn = true ∧
        (parseArguments parse argv w).1.mem Global.g_ShouldLogCommOut = true) := by
  obtain ⟨slots, ports, c, ci, co, nb, rs⟩ := a
  unfold parseArguments
  rw [hparse]
  cases slots <;> cases ports <;>
    simp only [ValueArg.isSet, ValueArg.getValue, MultiArg.isSet, MultiArg.getValue,
      cMemorySettingsRepository.new, Option.isSome, Option.getD, List.isEmpty, Bool.not_false,
      Bool.not_true, if_true, Bool.false_eq_true, if_false, AddValue_writable, appendValue,
      foldlM_AddValue_absent "Server" "Port" _ _ [] (by simp),
      foldlM_AddValue_absent "Server" "Port" _ _ [(("Server", "MaxPlayers"), [_])] (by simp)] <;>
    cases c <;> cases ci <;> cases co <;> cases nb <;> cases rs <;>
    simp [SwitchArg.getValue]

/-- C9 at `--log-comm --log-comm-in` with both toggles false before: both
toggles are true afterwards. -/
theorem parseArguments_logging_toggles_witness :
    (parseArguments (fun _ => .ok logCommCmdLine) ["MCServer", "--log-comm", "--log-comm-in"]
        (World.initial false)).1.mem Global.g_ShouldLogCommIn = true ∧
      (parseArguments (fun _ => .ok logCommCmdLine) ["MCServer", "--log-comm", "--log-comm-in"]
        (World.initial false)).1.mem Global.g_ShouldLogCommOut = true :=
  (parseArguments_logging_toggles (fun _ => .ok logCommCmdLine)
    ["MCServer", "--log-comm", "--log-comm-in"] (World.initial false) logCommCmdLine rfl).2.2 rfl

/-! ## The stop flag and the signal handler -/

/-- C3: `m_TerminateEventRaised` starts false; every operation of `main.cpp`
(`NonCtrlHandler`, `CtrlHandler`, `serviceCtrlHandler`, `parseArguments`,
`universalMain`, with any arguments) started with the flag true ends with the
flag true; so does every sequence of them; and along a run from the initial
state, once the flag is true after some operations it is true after any
further ones. -/
theorem terminateEventRaised_monotonic (b : Build) (h : Host) (s : Bool) (op : Op)
    (ops more : List Op) (w : World)
    (hw : w.mem Global.m_TerminateEventRaised = true)
    (hreach : (runOps b h ops (World.initial s)).mem Global.m_TerminateEventRaised = true) :
    (World.initial s).mem Global.m_TerminateEventRaised = false ∧
      (step b h op w).1.mem Global.m_TerminateEventRaised = true ∧
      (runOps b h more w).mem Global.m_TerminateEventRaised = true ∧
      (runOps b h (ops ++ more) (World.initial s)).mem Global.m_TerminateEventRaised = true := by
  refine ⟨?_, step_mem_flag b h op w hw, runOps_mem_flag b h more w hw, ?_⟩
  · cases s <;> rfl
  · rcases runOps_append b h ops more (World.initial s) with e | e
    · rw [e]
      exact hreach
    · rw [e]
      exact runOps_mem_flag b h more _ hreach

/-- C3 on a Windows build: after SIGINT has raised the flag, a stop control
request, a second parse of the command line and a run of the supervisor leave
it raised. -/
theorem terminateEventRaised_monotonic_witness :
    (World.initial false).mem Global.m_TerminateEventRaised = false ∧
      (step windowsBuild goodHost (Op.serviceCtrlHandler 1)
        (NonCtrlHandler windowsBuild 2 (World.initial false)).1).1.mem
          Global.m_TerminateEventRaised = true ∧
      (runOps windowsBuild goodHost
        [Op.serviceCtrlHandler 1, Op.parseArguments scenarioParser [],
          Op.universalMain StartOutcome.returned cMemorySettingsRepository.new]
        (NonCtrlHandler windowsBuild 2 (World.initial false)).1).mem
          Global.m_TerminateEventRaised = true ∧
      (runOps windowsBuild goodHost
        ([Op.NonCtrlHandler 2] ++
          [Op.serviceCtrlHandler 1, Op.parseArguments scenarioParser [],
            Op.universalMain StartOutcome.returned cMemorySettingsRepository.new])
        (World.initial false)).mem Global.m_TerminateEventRaised = true :=
  terminateEventRaised_monotonic windowsBuild goodHost false (Op.serviceCtrlHandler 1)
    [Op.NonCtrlHandler 2]
    [Op.serviceCtrlHandler 1, Op.parseArguments scenarioParser [],
      Op.universalMain StartOutcome.returned cMemorySettingsRepository.new]
    (NonCtrlHandler windowsBuild 2 (World.initial false)).1 rfl rfl

/-- C4: on SIGINT or SIGTERM, from any state, `NonCtrlHandler` returns to its
caller with `m_TerminateEventRaised` true and the disposition of that signal
set to `SIG_IGN`; what it does is the debug line, the store to the flag and
the call of `std::signal`, so it calls neither `PrintStackTrace` nor
`abort`. -/
theorem NonCtrlHandler_graceful (b : Build) (hb : b.labelsDistinct = true) (a_Signal : Int)
    (hs : a_Signal = b.SIGINT ∨ a_Signal = b.SIGTERM) (w : World) :
    (NonCtrlHandler b a_Signal w).2 = Completion.returned ∧
      (NonCtrlHandler b a_Signal w).1.mem Global.m_TerminateEventRaised = true ∧
      (NonCtrlHandler b a_Signal w).1.trace = w.trace ++
        [Event.LOGD "Terminate event raised from std::signal",
          Event.write Global.m_TerminateEventRaised true,
          Event.signal a_Signal SigDisposition.SIG_IGN] ∧
      dispositionOf a_Signal (NonCtrlHandler b a_Signal w).1.trace
        = some SigDisposition.SIG_IGN ∧
      Event.PrintStackTrace ∉ (NonCtrlHandler b a_Signal w).1.trace.drop w.trace.length ∧
      Event.abort ∉ (NonCtrlHandler b a_Signal w).1.trace.drop w.trace.length := by
  rw [NonCtrlHandler_graceful_eq b hb a_Signal hs w]
  refine ⟨rfl, by simp, by simp, ?_, by simp, by simp⟩
  simp only [World.trace_call, World.trace_write]
  exact dispositionOf_append_signal a_Signal _ _

/-- C4 on a POSIX build, SIGTERM (15) delivered in the initial state. -/
theorem NonCtrlHandler_graceful_witness :
    (NonCtrlHandler posixBuild 15 (World.initial false)).2 = Completion.returned ∧
      (NonCtrlHandler posixBuild 15 (World.initial false)).1.mem
        Global.m_TerminateEventRaised = true ∧
      (NonCtrlHandler posixBuild 15 (World.initial false)).1.trace = (World.initial false).trace ++
        [Event.LOGD "Terminate event raised from std::signal",
          Event.write Global.m_TerminateEventRaised true,
          Event.signal 15 SigDisposition.SIG_IGN] ∧
      dispositionOf 15 (NonCtrlHandler posixBuild 15 (World.initial false)).1.trace
        = some SigDisposition.SIG_IGN ∧
      Event.PrintStackTrace ∉
        (NonCtrlHandler posixBuild 15 (World.initial false)).1.trace.drop
          (World.initial false).trace.length ∧
      Event.abort ∉
        (NonCtrlHandler posixBuild 15 (World.initial false)).1.trace.drop
          (World.initial false).trace.length :=
  NonCtrlHandler_graceful posixBuild (by decide) 15 (Or.inr rfl) (World.initial false)

/-- C5, at the failing input: a POSIX release build, where `main` routes
SIGSEGV and SIGABRT to `NonCtrlHandler` (lines 491 to 494), and SIGSEGV (11) is
delivered. The block of `case SIGSEGV` resets the disposition of SIGSEGV only;
its `abort()` raises SIGABRT (6), which starts the handler again, and
`PrintStackTrace` runs a second time, from the block of `case SIGABRT`. When
SIGABRT itself is delivered, the block resets the disposition of the signal
that `abort()` raises, and `PrintStackTrace` runs once. -/
theorem NonCtrlHandler_SIGSEGV_capturer_twice :
    (NonCtrlHandler posixBuild 11 (installSignalHandlers posixBuild (World.initial false))).1.trace
        = (installSignalHandlers posixBuild (World.initial false)).trace ++
          [Event.LOGD "Terminate event raised from std::signal",
            Event.write Global.m_TerminateEventRaised true,
            Event.signal 11 SigDisposition.SIG_DFL,
            Event.LOGERROR "  D:    | MCServer has encountered an error and needs to close",
            Event.LOGERROR "Details | SIGSEGV: Segmentation fault",
            Event.PrintStackTrace,
            Event.abort,
            Event.LOGD "Terminate event raised from std::signal",
            Event.write Global.m_TerminateEventRaised true,
            Event.signal 6 SigDisposition.SIG_DFL,
            Event.LOGERROR "  D:    | MCServer has encountered an error and needs to close",
            Event.LOGERROR "Details | SIGABRT: Server self-terminated due to an internal fault",
            Event.PrintStackTrace,
            Event.abort] ∧
      ((NonCtrlHandler posixBuild 11
          (installSignalHandlers posixBuild (World.initial false))).1.trace.drop
            (installSignalHandlers posixBuild (World.initial false)).trace.length).count
          Event.PrintStackTrace = 2 ∧
      (NonCtrlHandler posixBuild 11 (installSignalHandlers posixBuild (World.initial false))).2
        = Completion.aborted ∧
      ((NonCtrlHandler posixBuild 6
          (installSignalHandlers posixBuild (World.initial false))).1.trace.drop
            (installSignalHandlers posixBuild (World.initial false)).trace.length).count
          Event.PrintStackTrace = 1 := by
  refine ⟨rfl, by decide, rfl, by decide⟩

/-! ## The supervisor and the service -/

/-- C6, counterexample: on a build with `ANDROID_NDK` defined the `try` is
compiled out; when `Root.Start` throws a `std::exception`, the exception
leaves `universalMain`, `g_ServerTerminated` stays false and
`cNetworkSingleton::Terminate` is not called. -/
theorem universalMain_android_exception_escapes :
    (universalMain androidBuild goodHost (StartOutcome.stdException "boom")
        cMemorySettingsRepository.new (World.initial false)).2
        = some (Thrown.stdException "boom") ∧
      (universalMain androidBuild goodHost (StartOutcome.stdException "boom")
        cMemorySettingsRepository.new (World.initial false)).1.mem Global.g_ServerTerminated
        = false ∧
      (universalMain androidBuild goodHost (StartOutcome.stdException "boom")
        cMemorySettingsRepository.new (World.initial false)).1.trace.count
          Event.NetworkSingletonTerminate = 0 := by
  refine ⟨rfl, rfl, ?_⟩
  simp [universalMain, androidBuild, posixBuild, World.initial]

/-- C6, amended: on a build without `ANDROID_NDK`, for every outcome of
`Root.Start` (and on a build with it, when `Root.Start` returns),
`universalMain` lets no exception out, sets `g_ServerTerminated` to true,
calls `cNetworkSingleton::Terminate` exactly once, and calls neither
`PrintStackTrace` nor `abort`. -/
theorem universalMain_contains_exceptions (b : Build) (h : Host) (o : StartOutcome)
    (r : cMemorySettingsRepository) (w : World)
    (hb : b.ANDROID_NDK = false ∨ o = StartOutcome.returned) :
    (universalMain b h o r w).2 = none ∧
      (universalMain b h o r w).1.mem Global.g_ServerTerminated = true ∧
      ((universalMain b h o r w).1.trace.drop w.trace.length).count
        Event.NetworkSingletonTerminate = 1 ∧
      Event.PrintStackTrace ∉ (universalMain b h o r w).1.trace.drop w.trace.length ∧
      Event.abort ∉ (universalMain b h o r w).1.trace.drop w.trace.length := by
  obtain ⟨h1, h2, h3⟩ := universalMain_trace b h o r w hb
  refine ⟨h1, h2, ?_, ?_, ?_⟩ <;>
    (rw [h3, List.append_assoc, List.drop_left]
     cases b.WIN32 <;> cases h.SetConsoleCtrlHandler <;> cases o <;> simp)

/-- C6, amended, on a POSIX build with `Root.Start` throwing a
`std::exception`. -/
theorem universalMain_contains_exceptions_witness :
    (universalMain posixBuild goodHost (StartOutcome.stdException "boom")
        cMemorySettingsRepository.new (World.initial false)).2 = none ∧
      (universalMain posixBuild goodHost (StartOutcome.stdException "boom")
        cMemorySettingsRepository.new (World.initial false)).1.mem Global.g_ServerTerminated
        = true ∧
      ((universalMain posixBuild goodHost (StartOutcome.stdException "boom")
        cMemorySettingsRepository.new (World.initial false)).1.trace.drop
          (World.initial false).trace.length).count Event.NetworkSingletonTerminate = 1 ∧
      Event.PrintStackTrace ∉
        (universalMain posixBuild goodHost (StartOutcome.stdException "boom")
          cMemorySettingsRepository.new (World.initial false)).1.trace.drop
            (World.initial false).trace.length ∧
      Event.abort ∉
        (universalMain posixBuild goodHost (StartOutcome.stdException "boom")
          cMemorySettingsRepository.new (World.initial false)).1.trace.drop
            (World.initial false).trace.length :=
  universalMain_contains_exceptions posixBuild goodHost (StartOutcome.stdException "boom")
    cMemorySettingsRepository.new (World.initial false) (Or.inl rfl)

/-- C7, counterexample: from the initial state a stop control request leaves
`m_TerminateEventRaised` false, while `NonCtrlHandler` (on SIGINT) and
`CtrlHandler` set it to true. -/
theorem serviceCtrlHandler_leaves_terminate_flag :
    (serviceCtrlHandler windowsBuild goodHost windowsBuild.SERVICE_CONTROL_STOP
        (World.initial false)).mem Global.m_TerminateEventRaised = false ∧
      (NonCtrlHandler windowsBuild windowsBuild.SIGINT (World.initial false)).1.mem
        Global.m_TerminateEventRaised = true ∧
      (CtrlHandler (fun _ => true) 1 0 (World.initial false)).1.mem
        Global.m_TerminateEventRaised = true := by
  refine ⟨rfl, rfl, rfl⟩

/-- C7, amended: on `SERVICE_CONTROL_STOP`, from any state and whatever the
host answers, `serviceCtrlHandler` sets `cRoot::m_ShouldStop` to true, leaves
`cRoot::m_TerminateEventRaised` as it was, and then reports the state
`SERVICE_STOP_PENDING` to the host through `SetServiceStatus` (logging an
error line when that call fails). -/
theorem serviceCtrlHandler_stop (b : Build) (h : Host) (w : World) :
    (serviceCtrlHandler b h b.SERVICE_CONTROL_STOP w).mem Global.m_ShouldStop = true ∧
      (serviceCtrlHandler b h b.SERVICE_CONTROL_STOP w).mem Global.m_TerminateEventRaised
        = w.mem Global.m_TerminateEventRaised ∧
      (serviceCtrlHandler b h b.SERVICE_CONTROL_STOP w).trace = w.trace ++
        ([Event.write Global.m_ShouldStop true,
          Event.SetServiceStatus 0 b.SERVICE_STOP_PENDING 0] ++
          (if h.SetServiceStatus then []
           else [Event.LOGERROR "SetServiceStatus() failed\n"])) := by
  refine ⟨?_, serviceCtrlHandler_mem_flag b h _ w, ?_⟩
  · simp [serviceCtrlHandler, switchOn, serviceCtrlHandlerBlocks, fromLabel, runBlocks,
      serviceSetState_mem]
  · simp [serviceCtrlHandler, switchOn, serviceCtrlHandlerBlocks, fromLabel, runBlocks,
      serviceSetState_trace]

/-- C8, at the failing input: on a Windows build, `-d -p 25565` makes
`parseArguments` return the sealed repository with Server.Port = [25565], yet
in service mode `Root.Start` is handed a fresh repository, empty and writable;
without `-d` the same build hands `Root.Start` the repository that
`parseArguments` returned. -/
theorem main_service_mode_drops_overrides :
    (parseArguments (fun _ => .ok serviceCmdLine) ["MCServer", "-d", "-p", "25565"]
        (installSignalHandlers windowsBuild (World.initial false))).2
        = .ok { m_Map := [(("Server", "Port"), [25565])], m_Writable := false } ∧
      startedWith (main windowsBuild goodHost (fun _ => .ok serviceCmdLine)
        StartOutcome.returned ["MCServer", "-d", "-p", "25565"] (World.initial false)).1.trace
        = [{ m_Map := [], m_Writable := true }] ∧
      startedWith (main windowsBuild goodHost
        (fun _ => .ok { serviceCmdLine with runAsService := false })
        StartOutcome.returned ["MCServer", "-p", "25565"] (World.initial false)).1.trace
        = [{ m_Map := [(("Server", "Port"), [25565])], m_Writable := false }] := by
  refine ⟨rfl, rfl, rfl⟩

/-- C10, counterexample: in a run of `universalMain` (POSIX build, `Root.Start`
returns) the first four events end with the store of true to
`g_ServerTerminated`; at that point the flag is true, so the wait loop of
`CtrlHandler` is left and the handler returns, and
`cNetworkSingleton::Terminate` has not been called yet. -/
theorem universalMain_terminated_flag_precedes_teardown :
    (universalMain posixBuild goodHost StartOutcome.returned cMemorySettingsRepository.new
        (World.initial false)).1.trace
        = [Event.InitiateMultithreading, Event.NetworkSingletonGet,
            Event.RootStart cMemorySettingsRepository.new,
            Event.write Global.g_ServerTerminated true,
            Event.NetworkSingletonGet, Event.NetworkSingletonTerminate] ∧
      replay (World.initial false).mem
        ((universalMain posixBuild goodHost StartOutcome.returned cMemorySettingsRepository.new
          (World.initial false)).1.trace.take 4) Global.g_ServerTerminated = true ∧
      Event.NetworkSingletonTerminate ∉
        (universalMain posixBuild goodHost StartOutcome.returned cMemorySettingsRepository.new
          (World.initial false)).1.trace.take 4 ∧
      (CtrlHandler
        (fun _ => replay (World.initial false).mem
          ((universalMain posixBuild goodHost StartOutcome.returned
            cMemorySettingsRepository.new (World.initial false)).1.trace.take 4)
          Global.g_ServerTerminated)
        1 0 (World.initial false)).2 = true := by
  refine ⟨rfl, rfl, ?_, rfl⟩
  simp [universalMain, universalMainEnd, posixBuild, World.initial]

/-- C10, amended: on a run of `universalMain` that no exception leaves, the
store of true to `g_ServerTerminated` comes after the start of the root
application has ended and directly before the teardown: the last three events
are that store, `cNetworkSingleton::Get` and `Terminate`, and before them there
is the call of `Root.Start`, no `Terminate` and no store to
`g_ServerTerminated`. Hence, with the flag false before, whenever `CtrlHandler`
running beside `universalMain` leaves its wait loop and returns, it does so at
the first evaluation of the loop condition that reads true, and by then
`Root.Start` has been called and has ended; and `CtrlHandler` can return when
`Terminate` has not been called yet. -/
theorem universalMain_terminated_then_teardown (b : Build) (h : Host) (o : StartOutcome)
    (r : cMemorySettingsRepository) (w : World)
    (hb : b.ANDROID_NDK = false ∨ o = StartOutcome.returned) :
    ∃ pre : List Event,
      (universalMain b h o r w).1.trace = w.trace ++ pre ++
        [Event.write Global.g_ServerTerminated true, Event.NetworkSingletonGet,
          Event.NetworkSingletonTerminate] ∧
      Event.RootStart r ∈ pre ∧
      Event.NetworkSingletonTerminate ∉ pre ∧
      (∀ v, Event.write Global.g_ServerTerminated v ∉ pre) ∧
      (∀ (progress : Nat → Nat) (fuel c : Nat) (w' : World),
        w.mem Global.g_ServerTerminated = false →
        (CtrlHandler
          (seenDuring w.mem ((universalMain b h o r w).1.trace.drop w.trace.length) progress)
          fuel c w').2 = true →
        ∃ k, k < fuel ∧
          seenDuring w.mem ((universalMain b h o r w).1.trace.drop w.trace.length) progress k
            = true ∧
          (∀ i, i < k →
            seenDuring w.mem ((universalMain b h o r w).1.trace.drop w.trace.length) progress i
              = false) ∧
          Event.RootStart r ∈
            ((universalMain b h o r w).1.trace.drop w.trace.length).take (progress k)) ∧
      (∀ (c : Nat) (w' : World),
        (CtrlHandler
          (seenDuring w.mem ((universalMain b h o r w).1.trace.drop w.trace.length)
            (fun _ => pre.length + 1))
          1 c w').2 = true ∧
        Event.NetworkSingletonTerminate ∉
          ((universalMain b h o r w).1.trace.drop w.trace.length).take (pre.length + 1)) := by
  obtain ⟨pre, h3, hstart, hterm, hstore⟩ := universalMain_shape b h o r w hb
  have htake : (pre ++ [Event.write Global.g_ServerTerminated true, Event.NetworkSingletonGet,
      Event.NetworkSingletonTerminate]).take (pre.length + 1)
      = pre ++ [Event.write Global.g_ServerTerminated true] := by
    rw [List.take_append_eq_append_take]
    simp
  refine ⟨pre, h3, hstart, hterm, hstore, ?_, ?_⟩
  · intro progress fuel c w' hw hret
    rw [h3, List.append_assoc, List.drop_left] at hret ⊢
    obtain ⟨j, _, hj, hseen, hfirst⟩ := CtrlHandlerWait_returns _ fuel 0 _ hret
    refine ⟨j, by omega, hseen, fun i hi => hfirst i (Nat.zero_le i) hi, ?_⟩
    have hmem := replay_true_mem w.mem _ Global.g_ServerTerminated hw hseen
    exact mem_take_append_of_not_mem pre _ (progress j) _ hmem (hstore true) _ hstart
  · intro c w'
    rw [h3, List.append_assoc, List.drop_left]
    refine ⟨?_, ?_⟩
    · apply CtrlHandlerWait_enough _ 1 0 0 _ (le_refl 0) (by omega)
      show replay w.mem _ Global.g_ServerTerminated = true
      rw [htake]
      exact replay_append_write w.mem pre Global.g_ServerTerminated true
    · rw [htake]
      simp [hterm]

/-- C10, amended, on a Windows build with `Root.Start` throwing something that
is not a `std::exception`. -/
theorem universalMain_terminated_then_teardown_witness :
    ∃ pre : List Event,
      (universalMain windowsBuild goodHost StartOutcome.otherException
          cMemorySettingsRepository.new (World.initial false)).1.trace
        = (World.initial false).trace ++ pre ++
          [Event.write Global.g_ServerTerminated true, Event.NetworkSingletonGet,
            Event.NetworkSingletonTerminate] ∧
      Event.RootStart cMemorySettingsRepository.new ∈ pre ∧
      Event.NetworkSingletonTerminate ∉ pre ∧
      (∀ v, Event.write Global.g_ServerTerminated v ∉ pre) ∧
      (∀ (progress : Nat → Nat) (fuel c : Nat) (w' : World),
        (World.initial false).mem Global.g_ServerTerminated = false →
        (CtrlHandler
          (seenDuring (World.initial false).mem
            ((universalMain windowsBuild goodHost StartOutcome.otherException
              cMemorySettingsRepository.new (World.initial false)).1.trace.drop
                (World.initial false).trace.length) progress)
          fuel c w').2 = true →
        ∃ k, k < fuel ∧
          seenDuring (World.initial false).mem
            ((universalMain windowsBuild goodHost StartOutcome.otherException
              cMemorySettingsRepository.new (World.initial false)).1.trace.drop
                (World.initial false).trace.length) progress k = true ∧
          (∀ i, i < k →
            seenDuring (World.initial false).mem
              ((universalMain windowsBuild goodHost StartOutcome.otherException
                cMemorySettingsRepository.new (World.initial false)).1.trace.drop
                  (World.initial false).trace.length) progress i = false) ∧
          Event.RootStart cMemorySettingsRepository.new ∈
            ((universalMain windowsBuild goodHost StartOutcome.otherException
              cMemorySettingsRepository.new (World.initial false)).1.trace.drop
                (World.initial false).trace.length).take (progress k)) ∧
      (∀ (c : Nat) (w' : World),
        (CtrlHandler
          (seenDuring (World.initial false).mem
            ((universalMain windowsBuild goodHost StartOutcome.otherException
              cMemorySettingsRepository.new (World.initial false)).1.trace.drop
                (World.initial false).trace.length)
            (fun _ => pre.length + 1))
          1 c w').2 = true ∧
        Event.NetworkSingletonTerminate ∉
          ((universalMain windowsBuild goodHost StartOutcome.otherException
            cMemorySettingsRepository.new (World.initial false)).1.trace.drop
              (World.initial false).trace.length).take (pre.length + 1)) :=
  universalMain_terminated_then_teardown windowsBuild goodHost StartOutcome.otherException
    cMemorySettingsRepository.new (World.initial false) (Or.inl rfl)

end MCServer
